import Mathlib

/-!
Verification of the Path-Set-Find repository's marker-search and
path-resolution engine.

The scripts are modelled shallowly:

* Strings are `List Char` (`Str`); Python string operations
  (`in`, `split`, `upper`, `os.path.join`, `os.path.dirname`,
  slicing and `count`) are defined on `Str` mirroring CPython semantics.
* A directory tree visible to a scan is an `FSDir`: its entry name, a
  flag recording whether listing it raises `PermissionError`, its plain
  files and its subdirectories, in listing order.  `os.walk(top)`
  (topdown, `onerror=None`) yields `(root, dirs, files)` for `top` and
  then recurses into each subdirectory in order; a directory whose
  listing fails is skipped silently, subtree and all.  The scanners of
  `autoPath_v1.0.py` and `autoSet_path.py` consume that stream with an
  early `return` on the first match and prune descent by assigning
  `dirs[:] = []`; the recursive functions below are that loop fused
  with the walk.
* `pandas.read_csv(...)` tables are `List (List Str)` of cell values;
  a missing csv file is `none`.  `DataFrame.iat[r, c]` supports
  negative (end-relative) positions and raises `IndexError` out of
  range, modelled by `iatLookup` returning `Option`.
* Environment-dependent volume enumeration is modelled by passing the
  enumerated volumes (drive string, `is_system_drive` answer, visible
  tree) explicitly to the resolver.
-/

/-- Characters of a Python string, in order. -/
abbrev Str := List Char

/-- The path separator `os.sep` (POSIX). -/
def sep : Char := '/'

/-- The underscore character used by the marker-name protocol. -/
def und : Char := '_'

/-- Number of separators in a string: Python `s.count(os.sep)`. -/
def countSep (s : Str) : Nat := s.countP (fun c => c = sep)

/-- Depth computed by the scanners: `root[len(drive):].count(os.sep)`. -/
def pyDepth (drive root : Str) : Nat := countSep (root.drop drive.length)

/-- Python `os.path.join(p, n)` for a single component `n` (POSIX rules:
an absolute `n` replaces `p`; a separator is inserted unless `p` is empty
or already ends with one). -/
def pjoin (p n : Str) : Str :=
  if n.head? = some sep then n
  else if p = [] ∨ p.getLast? = some sep then p ++ n
  else p ++ sep :: n

/-- Python `needle in hay` substring test. -/
def strContains (hay needle : Str) : Bool :=
  (List.range (hay.length + 1)).any (fun i => needle.isPrefixOf (hay.drop i))

/-- Python `os.path.dirname(p)`: everything up to the last separator,
with trailing separators stripped unless the head is all separators. -/
def dirname (p : Str) : Str :=
  let headRev := p.reverse.dropWhile (fun c => c ≠ sep)
  if headRev.all (fun c => c = sep) then headRev.reverse
  else (headRev.dropWhile (fun c => c = sep)).reverse

/-- Python `s.split(c)` for a one-character separator: splits at every
occurrence, keeping empty fields. -/
def pySplit (c : Char) : Str → List Str
  | [] => [[]]
  | x :: xs =>
    match pySplit c xs with
    | [] => [[]]
    | h :: t => if x = c then [] :: h :: t else (x :: h) :: t

/-- Python `str.upper()` on one character (ASCII letters only, which is
all the callers ever pass): a code point in `[97, 122]` (`a`-`z`) moves
down by 32, everything else is unchanged. -/
def pyUpper (c : Char) : Char :=
  if 97 ≤ c.toNat ∧ c.toNat ≤ 122 then Char.ofNat (c.toNat - 32) else c

/-- The regex class `[a-zA-Z]`, by code point. -/
def isAlphaC (c : Char) : Bool :=
  (97 ≤ c.toNat ∧ c.toNat ≤ 122) ∨ (65 ≤ c.toNat ∧ c.toNat ≤ 90)

/-- The regex class `\d`, by code point (`0`-`9` is `[48, 57]`). -/
def isDigitC (c : Char) : Bool := 48 ≤ c.toNat ∧ c.toNat ≤ 57

/-- Value of a decimal digit string, as computed by Python `int(s)` on
an all-digit string. -/
def digitsVal (s : Str) : Nat := s.foldl (fun a c => a * 10 + (c.toNat - 48)) 0

/-- The `DirectMarker` filename literal. -/
def setpathName : Str := "_setpath_".toList

/-- The `LocalMarker` filename literal. -/
def setthispathName : Str := "_setthispath_".toList

/-- The `TableRefMarker` sentinel target `"_setfromcsv_"`. -/
def setfromcsvName : Str := "_setfromcsv_".toList

/-- Target list of `autoPath_v1.0.py`:
`["_setpath_", "_setthispath_", "_setfromcsv_"]`. -/
def targetsV10 : List Str := [setpathName, setthispathName, setfromcsvName]

/-- Match of the regex `_setfromcsv_([a-zA-Z]\d+)_` anchored at the start
of `s`, returning group 1.  The greedy `\d+` takes the maximal digit run;
backtracking cannot help because every shorter run is followed by a
digit, so the run must be followed directly by `_`. -/
def csvMatchAt (s : Str) : Option Str :=
  if setfromcsvName.isPrefixOf s then
    match s.drop setfromcsvName.length with
    | c :: rest =>
      if isAlphaC c then
        let ds := rest.takeWhile isDigitC
        if ds ≠ [] ∧ (rest.drop ds.length).head? = some und then
          some (c :: ds)
        else none
      else none
    | [] => none
  else none

/-- Python `re.search(r'_setfromcsv_([a-zA-Z]\d+)_', s)`: leftmost match
wins; returns group 1. -/
def reSearchCsv : Str → Option Str
  | [] => none
  | s@(_ :: t) =>
    match csvMatchAt s with
    | some g => some g
    | none => reSearchCsv t

/-- Inner loop body of `autoPath_v1.0.search_for_setpath_file` for one
file and one target: the `"_setfromcsv_"` target matches via the regex
and reports `"_setfromcsv_" + group + "_"`, any other target matches by
the substring test `target_file in file` and reports itself. -/
def matchTarget (file target : Str) : Option Str :=
  if target = setfromcsvName then
    (reSearchCsv file).map (fun g => setfromcsvName ++ g ++ [und])
  else if strContains file target then some target else none

/-- Result of the `for target_file in target_files` loop of
`autoPath_v1.0.search_for_setpath_file` on a single filename: the first
target in list order that matches. -/
def matchFile (targets : List Str) (file : Str) : Option Str :=
  targets.findSome? (matchTarget file)

/-- Result of the `for file in files` loop of
`autoPath_v1.0.search_for_setpath_file` in one directory: the first
filename in listing order with any matching target, returned as
`(os.path.join(root, file), matched_target)`. -/
def checkFiles (targets : List Str) (root : Str) (files : List Str) :
    Option (Str × Str) :=
  files.findSome? (fun f => (matchFile targets f).map (fun t => (pjoin root f, t)))

/-- A directory subtree as the scanners see it: entry name, whether
listing it raises `PermissionError`, plain files, subdirectories. -/
inductive FSDir where
  | mk (name : Str) (denied : Bool) (files : List Str) (subs : List FSDir)
deriving Repr

/-- Entry name of a directory. -/
def FSDir.name : FSDir → Str
  | .mk n _ _ _ => n

/-- Whether listing the directory raises `PermissionError`. -/
def FSDir.denied : FSDir → Bool
  | .mk _ d _ _ => d

/-- Plain files of the directory, in listing order. -/
def FSDir.files : FSDir → List Str
  | .mk _ _ fs _ => fs

/-- Subdirectories, in listing order. -/
def FSDir.subs : FSDir → List FSDir
  | .mk _ _ _ ss => ss

mutual

/-- The `os.walk` loop of `autoPath_v1.0.search_for_setpath_file`, fused
with the walk, for the subtree `t` mounted at path `root` of the drive
being scanned.  A directory whose listing raises `PermissionError` is
skipped by `os.walk` (`onerror=None`), subtree included.  On the system
drive a directory whose depth reaches `maxD` is yielded but skipped
(`dirs[:] = []; continue`): its files are not checked and its children
are not walked.  Otherwise the first matching file returns immediately,
else the children are walked in listing order. -/
def searchDirV10 (isSys : Bool) (maxD : Nat) (drive : Str) :
    FSDir → Str → Option (Str × Str)
  | .mk _ denied files subs, root =>
    if denied then none
    else if isSys ∧ pyDepth drive root ≥ maxD then none
    else
      match checkFiles targetsV10 root files with
      | some r => some r
      | none => searchSubsV10 isSys maxD drive subs root

/-- Walk of a sibling list at parent path `root`: first subtree with a
match wins. -/
def searchSubsV10 (isSys : Bool) (maxD : Nat) (drive : Str) :
    List FSDir → Str → Option (Str × Str)
  | [], _ => none
  | c :: cs, root =>
    match searchDirV10 isSys maxD drive c (pjoin root c.name) with
    | some r => some r
    | none => searchSubsV10 isSys maxD drive cs root

end

/-- Model of `autoPath_v1.0.search_for_setpath_file(drive, target_files)` on the
tree visible at `drive`, with the default `max_system_depth=2` and
`is_system_drive(drive) = isSys`. -/
def search_for_setpath_file (isSys : Bool) (drive : Str) (t : FSDir) :
    Option (Str × Str) :=
  searchDirV10 isSys 2 drive t drive

mutual

/-- All directories of the subtree `t` mounted at `root`, as
`(path, directory)` pairs, in walk order. -/
def allDirsD : FSDir → Str → List (Str × FSDir)
  | t@(.mk _ _ _ subs), root => (root, t) :: allDirsL subs root

/-- All directories contributed by a sibling list at parent path `root`. -/
def allDirsL : List FSDir → Str → List (Str × FSDir)
  | [], _ => []
  | c :: cs, root => allDirsD c (pjoin root c.name) ++ allDirsL cs root

end

/-- Model of `pandas.DataFrame.iat[row, col]` on a table of string cells: purely
positional, negative indices count from the end, out-of-range raises
`IndexError` (here `none`). -/
def iatLookup (tbl : List (List Str)) (row col : Int) : Option Str :=
  let r : Int := if row < 0 then row + tbl.length else row
  match tbl.get? r.toNat with
  | none => none
  | some rowv =>
    if r < 0 then none
    else
      let c : Int := if col < 0 then col + rowv.length else col
      if c < 0 then none else rowv.get? c.toNat

/-- Model of `autoPath_v1.0.read_path_from_csv(csv_file, cell_reference)`:
`row = int(cell_reference[1:]) - 1`, `col = ord(cell_reference[0].upper()) - ord('A')`,
result `df.iat[row, col]`; `FileNotFoundError` (missing csv), `ValueError`
(non-digit row text) and `IndexError` (empty reference or out-of-range
address) all yield `None`.  Only the all-digit form of `int()` input is
modelled: every caller passes a regex-captured `letter+digits` cell. -/
def read_path_from_csv (csv : Option (List (List Str))) (cell : Str) :
    Option Str :=
  match csv with
  | none => none
  | some tbl =>
    match cell with
    | [] => none
    | c :: rest =>
      if rest ≠ [] ∧ rest.all isDigitC then
        iatLookup tbl ((digitsVal rest : Int) - 1) (((pyUpper c).toNat : Int) - 65)
      else none

/-- Model of `autoPath_v1.0.set_path_based_on_file(drive, file_path, target_file, csv_file)`:
`_setpath_` resolves to the drive, `_setthispath_` to the directory
containing the matched file, and a `_setfromcsv_…` target to the csv
cell named by `target_file.split("_")[2].upper()`.  A `_setfromcsv_…`
target with fewer than three `_`-separated parts would raise
`IndexError` in the source; it never occurs for scanner-produced
targets and is mapped to `none` here. -/
def set_path_based_on_file (drive filePath target : Str)
    (csv : Option (List (List Str))) : Option Str :=
  if target = setpathName then some drive
  else if target = setthispathName then some (dirname filePath)
  else if setfromcsvName.isPrefixOf target then
    match (pySplit und target).get? 2 with
    | some cell => read_path_from_csv csv (cell.map pyUpper)
    | none => none
  else none

/-- One enumerated volume as `autoPath_v1.0.choose_path` sees it: the
drive string returned by `get_available_drives`, the answer
`is_system_drive(drive)` gives for it, and the directory tree visible
beneath it. -/
structure Volume where
  drive : Str
  isSystem : Bool
  tree : FSDir

/-- The body of `choose_path`'s per-drive loop iteration: scan the
volume; on a match convert it; return the converted path only when it
is truthy (Python `if chosen_path:` — `None` and the empty string both
fall through to the next drive). -/
def tryVolume (csv : Option (List (List Str))) (v : Volume) : Option Str :=
  match search_for_setpath_file v.isSystem v.drive v.tree with
  | none => none
  | some (fp, tf) =>
    match set_path_based_on_file v.drive fp tf csv with
    | none => none
    | some p => if p = [] then none else some p

/-- Loop of `choose_path` over a list of drives: first truthy result
wins. -/
def choose_path_loop (csv : Option (List (List Str))) :
    List Volume → Option Str
  | [] => none
  | v :: vs =>
    match tryVolume csv v with
    | some p => some p
    | none => choose_path_loop csv vs

/-- The partition at the top of `choose_path`: the system drive is the
last volume with `is_system_drive` true (each hit overwrites
`system_drive`), the others keep enumeration order. -/
def partitionDrives (vols : List Volume) : Option Volume × List Volume :=
  ((vols.filter (fun v => v.isSystem)).getLast?,
   vols.filter (fun v => !v.isSystem))

/-- Model of `autoPath_v1.0.choose_path(csv_file)` over the enumerated volumes:
non-system drives are searched first in enumeration order, the system
drive last, and the first truthy converted path is returned. -/
def choose_path (csv : Option (List (List Str))) (vols : List Volume) :
    Option Str :=
  let ps := partitionDrives vols
  match choose_path_loop csv ps.2 with
  | some p => some p
  | none =>
    match ps.1 with
    | some sv => tryVolume csv sv
    | none => none

/-- Drives whose `"Searching in …"` scan actually runs in the
`choose_path` loop over a drive list: every drive up to and including
the first one whose `tryVolume` is truthy. -/
def scannedDrives_loop (csv : Option (List (List Str))) :
    List Volume → List Str
  | [] => []
  | v :: vs =>
    v.drive ::
      (match tryVolume csv v with
       | some _ => []
       | none => scannedDrives_loop csv vs)

/-- Drives scanned by `choose_path` in order: the non-system drives up
to the first success, then the system drive iff no non-system drive
succeeded. -/
def scannedDrives (csv : Option (List (List Str))) (vols : List Volume) :
    List Str :=
  let ps := partitionDrives vols
  scannedDrives_loop csv ps.2 ++
    (match choose_path_loop csv ps.2 with
     | some _ => []
     | none =>
       match ps.1 with
       | some sv => [sv.drive]
       | none => [])

/-- Every directory path that exists in the enumerated fixture: the
walk-order paths of every volume's tree. -/
def allVolDirs (vols : List Volume) : List Str :=
  vols.flatMap (fun v => (allDirsD v.tree v.drive).map (fun pd => pd.1))

/-- Target list of `autoSet_path.py`:
`["_setpath_", "_setthispath_", "_setfromcsv_b"]`. -/
def targetsAS : List Str := [setpathName, setthispathName, "_setfromcsv_b".toList]

/-- Result of the target loop of `autoSet_path.search_for_setpath_file`
on one filename: plain substring matching only. -/
def matchFileAS (targets : List Str) (file : Str) : Option Str :=
  targets.findSome? (fun t => if strContains file t then some t else none)

/-- Result of the file loop of `autoSet_path.search_for_setpath_file`
in one directory. -/
def checkFilesAS (targets : List Str) (root : Str) (files : List Str) :
    Option (Str × Str) :=
  files.findSome? (fun f => (matchFileAS targets f).map (fun t => (pjoin root f, t)))

mutual

/-- The `os.walk` loop of `autoSet_path.search_for_setpath_file`, fused
with the walk, together with the trace of directories the loop body
receives from `os.walk` (each such directory has been listed).  A
directory whose depth `root[len(drive):].count(os.sep)` exceeds
`maxD` is still received (it is in the trace) but is skipped
(`dirs[:] = []; continue`): its files are not checked and its children
are never walked.  A directory whose listing raises `PermissionError`
is skipped silently by `os.walk`, subtree included.  The walk stops at
the first match. -/
def walkDirAS (targets : List Str) (maxD : Nat) (drive : Str) :
    FSDir → Str → Option (Str × Str) × List Str
  | .mk _ denied files subs, root =>
    if denied then (none, [])
    else if pyDepth drive root > maxD then (none, [root])
    else
      match checkFilesAS targets root files with
      | some r => (some r, [root])
      | none =>
        let rv := walkSubsAS targets maxD drive subs root
        (rv.1, root :: rv.2)

/-- Walk of a sibling list at parent path `root`, with trace; the walk
stops at the first subtree reporting a match. -/
def walkSubsAS (targets : List Str) (maxD : Nat) (drive : Str) :
    List FSDir → Str → Option (Str × Str) × List Str
  | [], _ => (none, [])
  | c :: cs, root =>
    match walkDirAS targets maxD drive c (pjoin root c.name) with
    | (some r, vs) => (some r, vs)
    | (none, vs) =>
      let rv := walkSubsAS targets maxD drive cs root
      (rv.1, vs ++ rv.2)

end

/-- Model of `autoSet_path.search_for_setpath_file(drive, target_files, max_depth)`:
the match component of the traced walk started at the drive root. -/
def search_setpath_AS (drive : Str) (t : FSDir) (maxD : Nat) :
    Option (Str × Str) :=
  (walkDirAS targetsAS maxD drive t drive).1

/-- A subdirectory entry name that contains no separator (true of every
name `os.walk` reports). -/
def nameOk (n : Str) : Bool := n.all (fun ch => ch ≠ sep)

mutual

/-- Every subdirectory name in the tree is separator-free. -/
def namesOkD : FSDir → Bool
  | .mk _ _ _ subs => namesOkL subs

/-- Every subdirectory name under a sibling list is separator-free. -/
def namesOkL : List FSDir → Bool
  | [] => true
  | c :: cs => nameOk c.name && namesOkD c && namesOkL cs

end

/-- The pure list update performed by `simple_path_manager.save_recent`
with `max_items=5`: `new = [path] + [p for p in items if p != path]`
then `new = new[:max_items]`. -/
def save_recent_list (path : Str) (items : List Str) : List Str :=
  (path :: items.filter (fun q => q ≠ path)).take 5

/-- State of `simple_path_manager.navigate_folder`'s loop: the current
directory and the `history` list (a stack whose top is the last
element, as Python `append`/`pop` use). -/
structure NavState where
  path : Str
  history : List Str
deriving Repr, DecidableEq

/-- One operator input to `navigate_folder`: `q`, `b`, or a number. -/
inductive NavChoice where
  | quit
  | back
  | num (n : Nat)
deriving Repr, DecidableEq

/-- Result of one loop iteration: continue with a new state, or return. -/
inductive NavOutcome where
  | cont (s : NavState)
  | done (result : Option Str)
deriving Repr, DecidableEq

/-- One iteration of `navigate_folder`'s loop, given the subfolder
listing function (`os.listdir` filtered to directories; an unreadable
directory yields `[]`).  `q` returns `None`; `b` pops `history` into
`path` when non-empty and otherwise falls through to "Invalid choice"
(state unchanged); number `1` returns the current path; number `n ≥ 2`
descends into subfolder `n - 2` when in range, pushing the current path,
and otherwise falls through to "Invalid choice". -/
def navStep (subsOf : Str → List Str) (s : NavState) : NavChoice → NavOutcome
  | .quit => .done none
  | .back =>
    match s.history.getLast? with
    | some p => .cont ⟨p, s.history.dropLast⟩
    | none => .cont s
  | .num n =>
    if n = 1 then .done (some s.path)
    else if 2 ≤ n ∧ n - 2 < (subsOf s.path).length then
      .cont ⟨pjoin s.path ((subsOf s.path).getD (n - 2) []),
             s.history ++ [s.path]⟩
    else .cont s

/-- The conventional POSIX mount-point directory `/media`. -/
def mediaRoot : Str := "/media".toList

/-- The conventional POSIX mount-point directory `/mnt`. -/
def mntRoot : Str := "/mnt".toList

/-- The conventional macOS mount-point directory `/Volumes`. -/
def volumesRoot : Str := "/Volumes".toList

/-- The filesystem facts volume enumeration consults: `os.path.exists`,
`os.listdir` (which may raise `PermissionError`, modelled as `.error ()`)
and `os.path.isdir`. -/
structure Env where
  pathExists : Str → Bool
  listdir : Str → Except Unit (List Str)
  isdir : Str → Bool

/-- Model of `path_setter.get_external_drives()` on Linux: entries of `/media`
then `/mnt`, joined to their mount root.  The `os.listdir` calls are
not guarded, so a `PermissionError` from either listing propagates out
of the function (`.error ()`). -/
def get_external_drives_ps (env : Env) : Except Unit (List Str) :=
  match (if env.pathExists mediaRoot then env.listdir mediaRoot
         else Except.ok []) with
  | .error e => .error e
  | .ok es₁ =>
    match (if env.pathExists mntRoot then env.listdir mntRoot
           else Except.ok []) with
    | .error e => .error e
    | .ok es₂ =>
      .ok (es₁.map (fun d => pjoin mediaRoot d) ++
           es₂.map (fun d => pjoin mntRoot d))

/-- The mount roots probed by `simple_path_manager.get_external_drives`
on POSIX. -/
def spmRoots : List Str := [mediaRoot, mntRoot, volumesRoot]

/-- One root's contribution in `simple_path_manager.get_external_drives`:
candidates `join(root, entry)` that are directories; a
`PermissionError` while listing the root is caught (`continue`), so the
root contributes nothing. -/
def spmRootDrives (env : Env) (root : Str) : List Str :=
  if env.pathExists root then
    match env.listdir root with
    | .error _ => []
    | .ok entries =>
      (entries.map (fun e => pjoin root e)).filter (fun c => env.isdir c)
  else []

/-- Model of `simple_path_manager.get_external_drives()` on POSIX: the
contributions of `/media`, `/mnt` and `/Volumes` in order; the
function is total — no permission error escapes. -/
def get_external_drives_spm (env : Env) : List Str :=
  spmRoots.flatMap (spmRootDrives env)

/-- Fixture for C1: one directory whose listing reports the
`LocalMarker` filename before the `DirectMarker` filename. -/
def c1Tree : FSDir := .mk "u1".toList false [setthispathName, setpathName] []

/-- Fixture for C2: the primary volume, whose only marker sits three
levels below the root (`/a/b/c`, Python-computed depth 2). -/
def c2Primary : Volume :=
  ⟨"/".toList, true,
    .mk "r".toList false []
      [.mk "a".toList false []
        [.mk "b".toList false []
          [.mk "c".toList false [setpathName] []]]]⟩

/-- Fixture for C2: a non-primary volume with no marker anywhere. -/
def c2Other : Volume :=
  ⟨"/mnt/usb".toList, false, .mk "usb".toList false ["notes.txt".toList] []⟩

/-- Fixture for C3: a non-primary volume whose marker is a
`TableRefMarker` whose csv lookup will fail. -/
def c3v1 : Volume :=
  ⟨"/mnt/u1".toList, false,
    .mk "u1".toList false ["_setfromcsv_a1_".toList] []⟩

/-- Fixture for C3: a later non-primary volume with a `DirectMarker`. -/
def c3v2 : Volume :=
  ⟨"/mnt/u2".toList, false, .mk "u2".toList false [setpathName] []⟩

/-- Fixture for C3: an empty primary volume. -/
def c3vp : Volume :=
  ⟨"/".toList, true, .mk "r".toList false [] []⟩

/-- Fixture for C4: a scan root with a single child directory. -/
def c4Tree : FSDir := .mk "u".toList false [] [.mk "a".toList false [] []]

/-- Fixture for C5: a non-primary volume carrying `_setfromcsv_b5_`. -/
def c5vol : Volume :=
  ⟨"/mnt/u4".toList, false,
    .mk "u4".toList false ["_setfromcsv_b5_".toList] []⟩

/-- Fixture for C5: a table whose cell at row index 4, column index 1
is `/data/archive`. -/
def c5csv : Option (List (List Str)) :=
  some [[], [], [], [], ["x".toList, "/data/archive".toList]]

/-- Fixture for C6: a volume whose marker is `_setfromcsv_a1_`. -/
def c6vol : Volume :=
  ⟨"/mnt/u3".toList, false,
    .mk "u3".toList false ["_setfromcsv_a1_".toList] []⟩

/-- Fixture for C6: a table whose cell `A1` names a directory that does
not exist in the fixture. -/
def c6csv : Option (List (List Str)) := some [["/bad".toList]]

/-- Fixture for C7: a subdirectory whose listing raises
`PermissionError`, containing a marker that must stay invisible. -/
def deniedDir : FSDir := .mk "locked".toList true [setpathName] []

/-- Fixture for C7: a readable sibling directory with a marker. -/
def okDir : FSDir := .mk "good".toList false [setpathName] []

/-- Fixture for C8: an environment where `/media` exists but listing it
raises `PermissionError`. -/
def envDenied : Env :=
  ⟨fun r => r == mediaRoot,
   fun r => if r == mediaRoot then .error () else .ok [],
   fun _ => true⟩

/-- Fixture for C8: an environment where `/media` lists one entry. -/
def envOk : Env :=
  ⟨fun r => r == mediaRoot,
   fun r => if r == mediaRoot then .ok ["usb".toList] else .error (),
   fun _ => true⟩

/-- A volume whose scan finds nothing contributes nothing to the loop. -/
theorem tryVolume_none_of_search (csv : Option (List (List Str))) (v : Volume)
    (h : search_for_setpath_file v.isSystem v.drive v.tree = none) :
    tryVolume csv v = none := by
  simp [tryVolume, h]

/-- A drive-loop iteration only returns a path past the truthiness
guard, so a returned path is never the empty string. -/
theorem tryVolume_some_ne (csv : Option (List (List Str))) (v : Volume) (p : Str)
    (h : tryVolume csv v = some p) : p ≠ [] := by
  unfold tryVolume at h
  split at h
  · cases h
  · split at h
    · cases h
    · split at h
      · cases h
      · injection h with h
        subst h
        assumption

/-- The drive loop returns nothing when every volume contributes
nothing. -/
theorem choose_path_loop_none (csv : Option (List (List Str)))
    (l : List Volume) (h : ∀ v ∈ l, tryVolume csv v = none) :
    choose_path_loop csv l = none := by
  induction l with
  | nil => rfl
  | cons v vs ih =>
    rw [choose_path_loop, h v (List.mem_cons_self v vs)]
    exact ih (fun u hu => h u (List.mem_cons_of_mem v hu))

/-- A path returned by the drive loop passed some volume's truthiness
guard, so it is non-empty. -/
theorem choose_path_loop_some_ne (csv : Option (List (List Str)))
    (l : List Volume) (p : Str) (h : choose_path_loop csv l = some p) :
    p ≠ [] := by
  induction l with
  | nil => cases h
  | cons v vs ih =>
    rw [choose_path_loop] at h
    cases ht : tryVolume csv v with
    | none => rw [ht] at h; exact ih h
    | some q =>
      rw [ht] at h
      injection h with h
      subst h
      exact tryVolume_some_ne csv v _ ht

mutual

/-- When every directory the scanner would examine (those at depth
below the active cap, or all of them off the system drive) contains no
matching file, the walk of a subtree reports no match. -/
theorem searchDirV10_none (isSys : Bool) (maxD : Nat) (drive : Str)
    (t : FSDir) (root : Str)
    (h : ∀ pd ∈ allDirsD t root,
      (isSys = false ∨ pyDepth drive pd.1 < maxD) →
      checkFiles targetsV10 pd.1 pd.2.files = none) :
    searchDirV10 isSys maxD drive t root = none := by
  cases t with
  | mk n d fs ss =>
    rw [searchDirV10]
    cases d with
    | true => simp
    | false =>
      simp only [Bool.false_eq_true, if_false]
      by_cases hp : isSys = true ∧ pyDepth drive root ≥ maxD
      · rw [if_pos hp]
      · rw [if_neg hp]
        have hcond : isSys = false ∨ pyDepth drive root < maxD := by
          cases hb : isSys with
          | false => exact Or.inl rfl
          | true =>
            right
            rcases Nat.lt_or_ge (pyDepth drive root) maxD with h2 | h2
            · exact h2
            · exact absurd ⟨hb, h2⟩ hp
        have hcf : checkFiles targetsV10 root fs = none := by
          have hm : ((root, FSDir.mk n false fs ss) : Str × FSDir) ∈
              allDirsD (FSDir.mk n false fs ss) root := by
            rw [allDirsD]; exact List.mem_cons_self _ _
          simpa [FSDir.files] using h _ hm hcond
        rw [hcf]
        exact searchSubsV10_none isSys maxD drive ss root
          (fun pd hpd hc =>
            h pd (by rw [allDirsD]; exact List.mem_cons_of_mem _ hpd) hc)

/-- Sibling-list companion of `searchDirV10_none`. -/
theorem searchSubsV10_none (isSys : Bool) (maxD : Nat) (drive : Str)
    (cs : List FSDir) (root : Str)
    (h : ∀ pd ∈ allDirsL cs root,
      (isSys = false ∨ pyDepth drive pd.1 < maxD) →
      checkFiles targetsV10 pd.1 pd.2.files = none) :
    searchSubsV10 isSys maxD drive cs root = none := by
  cases cs with
  | nil => rfl
  | cons c cs' =>
    rw [searchSubsV10]
    have h1 : searchDirV10 isSys maxD drive c (pjoin root c.name) = none :=
      searchDirV10_none isSys maxD drive c (pjoin root c.name)
        (fun pd hpd hc =>
          h pd (by rw [allDirsL]; exact List.mem_append_left _ hpd) hc)
    rw [h1]
    exact searchSubsV10_none isSys maxD drive cs' root
      (fun pd hpd hc =>
        h pd (by rw [allDirsL]; exact List.mem_append_right _ hpd) hc)

end

/-- A separator-free name cannot begin with the separator. -/
theorem nameOk_not_head_sep (n : Str) (h : nameOk n = true) :
    ¬ n.head? = some sep := by
  intro hh
  cases n with
  | nil => cases hh
  | cons c t =>
    injection hh with hc
    have := (List.all_eq_true.mp h) c (List.mem_cons_self c t)
    simp [hc] at this

/-- Joining a separator-free component never shortens a path. -/
theorem pjoin_length_ge (p n : Str) (h : nameOk n = true) :
    p.length ≤ (pjoin p n).length := by
  unfold pjoin
  rw [if_neg (nameOk_not_head_sep n h)]
  by_cases hp : p = [] ∨ p.getLast? = some sep
  · rw [if_pos hp]; simp
  · rw [if_neg hp]; simp

/-- A separator-free string contains no separators. -/
theorem countSep_sepfree (n : Str) (h : nameOk n = true) : countSep n = 0 := by
  unfold countSep
  refine List.countP_eq_zero.mpr ?_
  intro c hc
  have := (List.all_eq_true.mp h) c hc
  simpa using this

/-- The Python depth computation distributes over appending past the
drive prefix. -/
theorem pyDepth_append (drive p x : Str) (hl : drive.length ≤ p.length) :
    pyDepth drive (p ++ x) = pyDepth drive p + countSep x := by
  unfold pyDepth
  rw [List.drop_append_of_le_length hl]
  unfold countSep
  rw [List.countP_append]

/-- Joining one separator-free component raises the Python-computed
depth by at most one. -/
theorem pyDepth_pjoin_le (drive p n : Str) (hn : nameOk n = true)
    (hl : drive.length ≤ p.length) :
    pyDepth drive (pjoin p n) ≤ pyDepth drive p + 1 := by
  unfold pjoin
  rw [if_neg (nameOk_not_head_sep n hn)]
  by_cases hp : p = [] ∨ p.getLast? = some sep
  · rw [if_pos hp, pyDepth_append drive p n hl, countSep_sepfree n hn]
    omega
  · rw [if_neg hp, pyDepth_append drive p (sep :: n) hl]
    have : countSep (sep :: n) = countSep n + 1 := by
      unfold countSep
      rw [List.countP_cons_of_pos]
      simp
    rw [this, countSep_sepfree n hn]

mutual

/-- Every directory the `autoSet_path` walk receives while scanning a
subtree whose mount depth is within one past the bound also stays
within one past the bound. -/
theorem walkDirAS_visited (targets : List Str) (maxD : Nat) (drive : Str)
    (t : FSDir) (root : Str)
    (hn : namesOkD t = true) (hl : drive.length ≤ root.length)
    (hr : pyDepth drive root ≤ maxD + 1) :
    ∀ p ∈ (walkDirAS targets maxD drive t root).2,
      pyDepth drive p ≤ maxD + 1 := by
  cases t with
  | mk n d fs ss =>
    intro p hp
    rw [walkDirAS] at hp
    cases d with
    | true => simp at hp
    | false =>
      simp only [Bool.false_eq_true, if_false] at hp
      by_cases hdeep : pyDepth drive root > maxD
      · rw [if_pos hdeep] at hp
        simp at hp
        subst hp
        exact hr
      · rw [if_neg hdeep] at hp
        cases hcf : checkFilesAS targets root fs with
        | some r =>
          rw [hcf] at hp
          simp at hp
          subst hp
          exact hr
        | none =>
          rw [hcf] at hp
          simp only [List.mem_cons] at hp
          rcases hp with hp | hp
          · subst hp; exact hr
          · have hss : namesOkL ss = true := by
              rw [namesOkD] at hn; exact hn
            exact walkSubsAS_visited targets maxD drive ss root hss hl
              (Nat.le_of_not_lt hdeep) p hp

/-- Sibling-list companion of `walkDirAS_visited`: descent happens only
from a directory within the depth bound. -/
theorem walkSubsAS_visited (targets : List Str) (maxD : Nat) (drive : Str)
    (cs : List FSDir) (root : Str)
    (hn : namesOkL cs = true) (hl : drive.length ≤ root.length)
    (hr : pyDepth drive root ≤ maxD) :
    ∀ p ∈ (walkSubsAS targets maxD drive cs root).2,
      pyDepth drive p ≤ maxD + 1 := by
  cases cs with
  | nil => intro p hp; simp [walkSubsAS] at hp
  | cons c cs' =>
    intro p hp
    rw [namesOkL] at hn
    simp only [Bool.and_eq_true] at hn
    obtain ⟨⟨hnc, hndc⟩, hncs⟩ := hn
    have hl' : drive.length ≤ (pjoin root c.name).length :=
      Nat.le_trans hl (pjoin_length_ge root c.name hnc)
    have hr' : pyDepth drive (pjoin root c.name) ≤ maxD + 1 :=
      Nat.le_trans (pyDepth_pjoin_le drive root c.name hnc hl)
        (Nat.add_le_add_right hr 1)
    rw [walkSubsAS] at hp
    cases hw : walkDirAS targets maxD drive c (pjoin root c.name) with
    | mk r vs =>
      rw [hw] at hp
      cases r with
      | some m =>
        simp only at hp
        have := walkDirAS_visited targets maxD drive c (pjoin root c.name)
          hndc hl' hr' p
        rw [hw] at this
        exact this hp
      | none =>
        simp only [List.mem_append] at hp
        rcases hp with hp | hp
        · have := walkDirAS_visited targets maxD drive c (pjoin root c.name)
            hndc hl' hr' p
          rw [hw] at this
          exact this hp
        · exact walkSubsAS_visited targets maxD drive cs' root hncs hl hr p hp

end

/-- Valid small code points survive the `Char.ofNat` round trip. -/
theorem toNat_ofNat_small (n : Nat) (h : n < 55296) :
    (Char.ofNat n).toNat = n := by
  rw [Char.ofNat, dif_pos (Or.inl h)]
  simp [Char.ofNatAux, Char.toNat, UInt32.toNat, BitVec.toNat_ofNatLt]

/-- Code point of the underscore delimiter. -/
theorem und_toNat : und.toNat = 95 := by decide

/-- An alphabetic character is not the underscore delimiter. -/
theorem alpha_ne_und (c : Char) (h : isAlphaC c = true) : c ≠ und := by
  intro he
  subst he
  simp [isAlphaC, und_toNat] at h

/-- A digit is not the underscore delimiter. -/
theorem digit_ne_und (c : Char) (h : isDigitC c = true) : c ≠ und := by
  intro he
  subst he
  simp [isDigitC, und_toNat] at h

/-- Python `upper()` leaves digits unchanged. -/
theorem pyUpper_digit (c : Char) (h : isDigitC c = true) : pyUpper c = c := by
  simp only [isDigitC, decide_eq_true_eq] at h
  unfold pyUpper
  rw [if_neg]
  intro hcon
  omega

/-- Python `upper()` is idempotent. -/
theorem pyUpper_idem (c : Char) : pyUpper (pyUpper c) = pyUpper c := by
  unfold pyUpper
  by_cases h : 97 ≤ c.toNat ∧ c.toNat ≤ 122
  · rw [if_pos h]
    have hv : (Char.ofNat (c.toNat - 32)).toNat = c.toNat - 32 :=
      toNat_ofNat_small _ (by omega)
    rw [if_neg]
    rw [hv]
    omega
  · rw [if_neg h, if_neg h]

/-- Python `upper()` acts as the identity on an all-digit string. -/
theorem map_pyUpper_digits (ds : Str) (h : ds.all isDigitC = true) :
    ds.map pyUpper = ds := by
  induction ds with
  | nil => rfl
  | cons d ds' ih =>
    simp only [List.all_cons, Bool.and_eq_true] at h
    rw [List.map_cons, pyUpper_digit d h.1, ih h.2]

/-- A list is a prefix of itself followed by anything. -/
theorem isPrefixOf_append_self (l r : List Char) :
    l.isPrefixOf (l ++ r) = true := by
  induction l with
  | nil => simp [List.isPrefixOf]
  | cons a as ih => simp [List.isPrefixOf, ih]

/-- Taking while a predicate holds stops exactly at the first failing
element. -/
theorem takeWhile_append_stop (p : Char → Bool) (l : List Char) (c : Char)
    (r : List Char) (hl : l.all p = true) (hc : p c = false) :
    (l ++ c :: r).takeWhile p = l := by
  induction l with
  | nil => simp [List.takeWhile, hc]
  | cons a as ih =>
    simp only [List.all_cons, Bool.and_eq_true] at hl
    simp [List.takeWhile, hl.1, ih hl.2]

/-- The anchored regex match succeeds on a filename that is exactly the
`TableRefMarker` shape and captures the letter with the digit run. -/
theorem csvMatchAt_exact (c : Char) (ds : Str) (hc : isAlphaC c = true)
    (hne : ds ≠ []) (hall : ds.all isDigitC = true) :
    csvMatchAt (setfromcsvName ++ c :: (ds ++ [und])) = some (c :: ds) := by
  unfold csvMatchAt
  rw [if_pos (isPrefixOf_append_self _ _)]
  rw [List.drop_append_of_le_length (Nat.le_refl _), List.drop_length,
    List.nil_append]
  simp only [hc, if_true]
  have htw : (ds ++ [und]).takeWhile isDigitC = ds := by
    have : (ds ++ und :: []).takeWhile isDigitC = ds :=
      takeWhile_append_stop isDigitC ds und [] hall (by decide)
    simpa using this
  rw [htw]
  rw [if_pos]
  constructor
  · exact hne
  · rw [List.drop_append_of_le_length (Nat.le_refl _), List.drop_length,
      List.nil_append]
    rfl

/-- Leftmost regex search on a filename that is exactly the
`TableRefMarker` shape captures at position zero. -/
theorem reSearchCsv_exact (c : Char) (ds : Str) (hc : isAlphaC c = true)
    (hne : ds ≠ []) (hall : ds.all isDigitC = true) :
    reSearchCsv (setfromcsvName ++ c :: (ds ++ [und])) = some (c :: ds) := by
  have hshape : setfromcsvName ++ c :: (ds ++ [und]) =
      und :: ("setfromcsv_".toList ++ c :: (ds ++ [und])) := by
    rfl
  rw [hshape, reSearchCsv]
  rw [← hshape, csvMatchAt_exact c ds hc hne hall]

/-- Python `split` never produces an empty field list. -/
theorem pySplit_ne_nil (u : Char) (s : Str) : pySplit u s ≠ [] := by
  cases s with
  | nil => simp [pySplit]
  | cons x xs =>
    rw [pySplit]
    cases h : pySplit u xs with
    | nil => simp
    | cons a t => by_cases hx : x = u <;> simp [hx]

/-- Splitting at a leading separator yields an empty first field. -/
theorem pySplit_sep (xs : Str) :
    pySplit und (und :: xs) = [] :: pySplit und xs := by
  rw [pySplit]
  cases h : pySplit und xs with
  | nil => exact absurd h (pySplit_ne_nil und xs)
  | cons a t => simp

/-- A non-separator character joins the first field of the split. -/
theorem pySplit_nonsep (x : Char) (xs : Str) (hx : x ≠ und)
    (h' : Str) (t' : List Str) (h : pySplit und xs = h' :: t') :
    pySplit und (x :: xs) = (x :: h') :: t' := by
  rw [pySplit, h]
  simp [hx]

/-- A separator-free block joins the first field of the split of what
follows it. -/
theorem pySplit_free_append (g ys : Str) (h' : Str) (t' : List Str)
    (hg : ∀ x ∈ g, x ≠ und) (hys : pySplit und ys = h' :: t') :
    pySplit und (g ++ ys) = (g ++ h') :: t' := by
  induction g with
  | nil => simpa using hys
  | cons a as ih =>
    have ha : a ≠ und := hg a (List.mem_cons_self a as)
    have ih' := ih (fun x hx => hg x (List.mem_cons_of_mem a hx))
    rw [List.cons_append]
    exact pySplit_nonsep a (as ++ ys) ha _ _ ih'

/-- Splitting a scanner-produced `TableRefMarker` target at underscores
yields the cell reference as field two. -/
theorem pySplit_target (c : Char) (ds : Str) (hc : isAlphaC c = true)
    (hall : ds.all isDigitC = true) :
    pySplit und ((setfromcsvName ++ (c :: ds)) ++ [und]) =
      [[], "setfromcsv".toList, c :: ds, []] := by
  have h1 : setfromcsvName = und :: ("setfromcsv".toList ++ [und]) := by decide
  have heq : (setfromcsvName ++ (c :: ds)) ++ [und] =
      und :: ("setfromcsv".toList ++ (und :: ((c :: ds) ++ [und]))) := by
    rw [h1]; simp
  rw [heq]
  have hfree1 : ∀ x ∈ (c :: ds), x ≠ und := by
    intro x hx
    rcases List.mem_cons.mp hx with h | h
    · subst h; exact alpha_ne_und x hc
    · exact digit_ne_und x ((List.all_eq_true.mp hall) x h)
  have p2 : pySplit und ((c :: ds) ++ [und]) = (c :: ds) :: [[]] := by
    have := pySplit_free_append (c :: ds) [und] [] [[]] hfree1 (by decide)
    simpa using this
  have p3 : pySplit und (und :: ((c :: ds) ++ [und])) =
      [] :: (c :: ds) :: [[]] := by
    rw [pySplit_sep, p2]
  have hfree2 : ∀ x ∈ "setfromcsv".toList, x ≠ und := by decide
  have p4 : pySplit und
      ("setfromcsv".toList ++ (und :: ((c :: ds) ++ [und]))) =
      "setfromcsv".toList :: (c :: ds) :: [[]] := by
    have := pySplit_free_append "setfromcsv".toList _ _ _ hfree2 p3
    simpa using this
  rw [pySplit_sep, p4]

/-- Claim C1, counterexample: with `_setpath_` and `_setthispath_` both
present but `_setthispath_` listed first, the scanner of
`autoPath_v1.0.py` returns the `LocalMarker`, not the `DirectMarker`:
per-directory pattern precedence does not hold independently of the
listing order. -/
theorem claim_C1_counterexample :
    setpathName ∈ c1Tree.files ∧
    search_for_setpath_file false "/mnt/u1".toList c1Tree =
      some ("/mnt/u1/_setthispath_".toList, setthispathName) := by
  decide

/-- Claim C1, amended: pattern precedence `DirectMarker`, `LocalMarker`,
`TableRefMarker` holds within one filename (the target loop runs per
file), and across filenames the first file in listing order with any
match decides the directory's result. -/
theorem claim_C1_amended :
    (∀ f : Str, strContains f setpathName = true →
      matchFile targetsV10 f = some setpathName) ∧
    (∀ f : Str, strContains f setpathName = false →
      strContains f setthispathName = true →
      matchFile targetsV10 f = some setthispathName) ∧
    (∀ (root f : Str) (fs : List Str) (t : Str),
      matchFile targetsV10 f = some t →
      checkFiles targetsV10 root (f :: fs) = some (pjoin root f, t)) ∧
    (∀ (root f : Str) (fs : List Str),
      matchFile targetsV10 f = none →
      checkFiles targetsV10 root (f :: fs) = checkFiles targetsV10 root fs) := by
  refine ⟨?_, ?_, ?_, ?_⟩
  · intro f h
    have hne : ¬ (setpathName = setfromcsvName) := by decide
    simp [matchFile, targetsV10, List.findSome?, matchTarget, hne, h]
  · intro f h0 h1
    have hne : ¬ (setpathName = setfromcsvName) := by decide
    have hne2 : ¬ (setthispathName = setfromcsvName) := by decide
    simp [matchFile, targetsV10, List.findSome?, matchTarget, hne, hne2, h0, h1]
  · intro root f fs t h
    simp [checkFiles, List.findSome?, h]
  · intro root f fs h
    simp [checkFiles, List.findSome?, h]

/-- Claim C1, witness: a directory listing `_setpath_` first resolves to
the `DirectMarker`. -/
theorem claim_C1_witness :
    matchFile targetsV10 setpathName = some setpathName ∧
    checkFiles targetsV10 "/mnt/u1".toList [setpathName, setthispathName] =
      some (pjoin "/mnt/u1".toList setpathName, setpathName) :=
  ⟨claim_C1_amended.1 setpathName (by decide),
   claim_C1_amended.2.2.1 "/mnt/u1".toList setpathName [setthispathName]
     setpathName (claim_C1_amended.1 setpathName (by decide))⟩

/-- Claim C2: when no non-primary volume contains any matching file and
every directory of the primary volume below the depth-2 cap contains no
matching file (in particular when the only marker sits at depth 3),
`choose_path` resolves to nothing. -/
theorem claim_C2 (csv : Option (List (List Str))) (vols : List Volume)
    (hO : ∀ v ∈ vols, v.isSystem = false →
      ∀ pd ∈ allDirsD v.tree v.drive,
        checkFiles targetsV10 pd.1 pd.2.files = none)
    (hS : ∀ v ∈ vols, v.isSystem = true →
      ∀ pd ∈ allDirsD v.tree v.drive, pyDepth v.drive pd.1 < 2 →
        checkFiles targetsV10 pd.1 pd.2.files = none) :
    choose_path csv vols = none := by
  have hloop : choose_path_loop csv (vols.filter (fun v => !v.isSystem)) = none := by
    apply choose_path_loop_none
    intro v hv
    have hmem := (List.mem_filter.mp hv).1
    have hflag : v.isSystem = false := by
      have := (List.mem_filter.mp hv).2
      simpa using this
    apply tryVolume_none_of_search
    unfold search_for_setpath_file
    rw [hflag]
    exact searchDirV10_none false 2 v.drive v.tree v.drive
      (fun pd hpd _ => hO v hmem hflag pd hpd)
  unfold choose_path partitionDrives
  simp only [hloop]
  cases hlast : (vols.filter (fun v => v.isSystem)).getLast? with
  | none => rfl
  | some sv =>
    have hsv : sv ∈ vols.filter (fun v => v.isSystem) := by
      cases hv : vols.filter (fun v => v.isSystem) with
      | nil => rw [hv] at hlast; cases hlast
      | cons a as =>
        rw [hv] at hlast
        have : sv ∈ (a :: as).getLast? := by rw [hlast]; rfl
        exact List.mem_of_mem_getLast? this
    have hmem := (List.mem_filter.mp hsv).1
    have hflag : sv.isSystem = true := by
      have := (List.mem_filter.mp hsv).2
      simpa using this
    apply tryVolume_none_of_search
    unfold search_for_setpath_file
    rw [hflag]
    apply searchDirV10_none true 2 sv.drive sv.tree sv.drive
    intro pd hpd hc
    rcases hc with h1 | h2
    · cases h1
    · exact hS sv hmem hflag pd hpd h2

/-- Claim C2, witness: the concrete fixture with the marker exactly
three levels below the primary root (Python-computed depth 2, which the
cap excludes) and a markerless non-primary volume resolves to nothing,
although the deep directory does contain a matching file. -/
theorem claim_C2_witness :
    choose_path none [c2Other, c2Primary] = none ∧
    checkFiles targetsV10 "/a/b/c".toList [setpathName] ≠ none ∧
    pyDepth c2Primary.drive "/a/b/c".toList = 2 :=
  ⟨claim_C2 none [c2Other, c2Primary] (by decide) (by decide),
   by decide, by decide⟩

/-- Claim C3, counterexample: the first non-primary volume's scan yields
a non-empty result (a `TableRefMarker` match), yet because its csv
conversion fails the resolver goes on to scan the second non-primary
volume — enumeration does not stop at the first non-empty scan. -/
theorem claim_C3_counterexample :
    search_for_setpath_file c3v1.isSystem c3v1.drive c3v1.tree ≠ none ∧
    scannedDrives none [c3v1, c3v2, c3vp] =
      ["/mnt/u1".toList, "/mnt/u2".toList] := by
  decide

/-- Claim C3, amended: the resolver scans non-primary volumes in
enumeration order before the primary, and stops at the first volume
whose scan yields a match that also converts to a truthy path; volumes
whose matches fail conversion do not stop enumeration, and the primary
is never scanned when some non-primary volume succeeds. -/
theorem claim_C3_amended :
    (∀ (csv : Option (List (List Str))) (pre : List Volume) (v : Volume)
       (post : List Volume) (p : Str),
      (∀ u ∈ pre, tryVolume csv u = none) → tryVolume csv v = some p →
      choose_path_loop csv (pre ++ v :: post) = some p ∧
      scannedDrives_loop csv (pre ++ v :: post) =
        pre.map (fun u => u.drive) ++ [v.drive]) ∧
    (∀ (csv : Option (List (List Str))) (vols : List Volume) (p : Str),
      choose_path_loop csv (vols.filter (fun u => !u.isSystem)) = some p →
      choose_path csv vols = some p ∧
      scannedDrives csv vols =
        scannedDrives_loop csv (vols.filter (fun u => !u.isSystem))) := by
  constructor
  · intro csv pre v post p hpre hv
    induction pre with
    | nil =>
      constructor
      · rw [List.nil_append, choose_path_loop, hv]
      · rw [List.nil_append, scannedDrives_loop, hv]; rfl
    | cons u us ih =>
      have hu : tryVolume csv u = none := hpre u (List.mem_cons_self u us)
      have ihr := ih (fun w hw => hpre w (List.mem_cons_of_mem u hw))
      constructor
      · rw [List.cons_append, choose_path_loop, hu]
        exact ihr.1
      · rw [List.cons_append, scannedDrives_loop, hu]
        simp only [List.map_cons, List.cons_append]
        rw [ihr.2]
  · intro csv vols p h
    constructor
    · unfold choose_path partitionDrives
      simp only [h]
    · unfold scannedDrives partitionDrives
      simp only [h]
      rw [List.append_nil]

/-- Claim C3, witness: in the three-volume fixture the resolver stops at
the second non-primary volume (the first with a convertible match) and
never scans the primary. -/
theorem claim_C3_witness :
    (choose_path_loop none ([c3v1] ++ c3v2 :: []) = some "/mnt/u2".toList ∧
     scannedDrives_loop none ([c3v1] ++ c3v2 :: []) =
       [c3v1].map (fun u => u.drive) ++ [c3v2.drive]) ∧
    (choose_path none [c3v1, c3v2, c3vp] = some "/mnt/u2".toList ∧
     scannedDrives none [c3v1, c3v2, c3vp] =
       scannedDrives_loop none
         ([c3v1, c3v2, c3vp].filter (fun u => !u.isSystem))) :=
  ⟨claim_C3_amended.1 none [c3v1] c3v2 [] "/mnt/u2".toList
     (by decide) (by decide),
   claim_C3_amended.2 none [c3v1, c3v2, c3vp] "/mnt/u2".toList (by decide)⟩

/-- Claim C4, counterexample: with depth bound 0, the `autoSet_path`
walk still receives (lists) the child directory at depth 1 — one past
the bound — before pruning its children, so the scanner does visit a
directory whose depth exceeds the bound. -/
theorem claim_C4_counterexample :
    "/mnt/u/a".toList ∈
      (walkDirAS targetsAS 0 "/mnt/u".toList c4Tree "/mnt/u".toList).2 ∧
    pyDepth "/mnt/u".toList "/mnt/u/a".toList > 0 := by
  decide

/-- Claim C4, amended: for every depth bound `d`, every directory the
walk receives has depth at most `d + 1`: directories one past the bound
are received but pruned (their files unchecked, their children never
walked), and no directory deeper than `d + 1` is ever received. -/
theorem claim_C4_amended (targets : List Str) (maxD : Nat) (drive : Str)
    (t : FSDir) (hn : namesOkD t = true) :
    ∀ p ∈ (walkDirAS targets maxD drive t drive).2,
      pyDepth drive p ≤ maxD + 1 :=
  walkDirAS_visited targets maxD drive t drive hn (Nat.le_refl _)
    (by simp [pyDepth, countSep, List.drop_length])

/-- Claim C4, witness: the depth-1 directory received under bound 0 is
within the amended bound of 1. -/
theorem claim_C4_witness :
    pyDepth "/mnt/u".toList "/mnt/u/a".toList ≤ 0 + 1 :=
  claim_C4_amended targetsAS 0 "/mnt/u".toList c4Tree (by decide)
    "/mnt/u/a".toList (by decide)

/-- Claim C5: a `TableRefMarker` filename of shape
`_setfromcsv_<letter><digits>_` is captured by the scanner's regex
branch, and conversion reads the table at row `digits - 1` (one-based
digits made zero-based) and column `ord(upper(letter)) - ord('A')`
(zero-based letter index); concretely, `_setfromcsv_b5_` with a table
whose cell at row index 4, column index 1 is `/data/archive` resolves
to `/data/archive`. -/
theorem claim_C5 :
    (∀ (c : Char) (ds : Str) (tbl : List (List Str)) (drive fp : Str),
      isAlphaC c = true → ds ≠ [] → ds.all isDigitC = true →
      matchTarget (setfromcsvName ++ c :: ds ++ [und]) setfromcsvName =
        some ((setfromcsvName ++ (c :: ds)) ++ [und]) ∧
      set_path_based_on_file drive fp ((setfromcsvName ++ (c :: ds)) ++ [und])
          (some tbl) =
        iatLookup tbl ((digitsVal ds : Int) - 1)
          (((pyUpper c).toNat : Int) - 65)) ∧
    choose_path c5csv [c5vol] = some "/data/archive".toList := by
  constructor
  · intro c ds tbl drive fp hc hne hall
    have hds1 : 0 < ds.length := List.length_pos.mpr hne
    have hlen12 : setfromcsvName.length = 12 := by decide
    have h9 : setpathName.length = 9 := by decide
    have h13 : setthispathName.length = 13 := by decide
    have hlen : ((setfromcsvName ++ (c :: ds)) ++ [und]).length =
        14 + ds.length := by
      simp [hlen12]
      omega
    have hne1 : (setfromcsvName ++ (c :: ds)) ++ [und] ≠ setpathName := by
      intro hbad
      have := congrArg List.length hbad
      rw [hlen, h9] at this
      omega
    have hne2 : (setfromcsvName ++ (c :: ds)) ++ [und] ≠ setthispathName := by
      intro hbad
      have := congrArg List.length hbad
      rw [hlen, h13] at this
      omega
    constructor
    · unfold matchTarget
      rw [if_pos rfl]
      have hsh : setfromcsvName ++ c :: ds ++ [und] =
          setfromcsvName ++ c :: (ds ++ [und]) := by simp
      rw [hsh, reSearchCsv_exact c ds hc hne hall]
      simp [List.append_assoc]
    · have hpref : setfromcsvName.isPrefixOf
          ((setfromcsvName ++ (c :: ds)) ++ [und]) = true := by
        rw [List.append_assoc]
        exact isPrefixOf_append_self _ _
      unfold set_path_based_on_file
      rw [if_neg hne1, if_neg hne2, if_pos hpref,
        pySplit_target c ds hc hall]
      have hmap : (c :: ds).map pyUpper = pyUpper c :: ds := by
        rw [List.map_cons, map_pyUpper_digits ds hall]
      show read_path_from_csv (some tbl) ((c :: ds).map pyUpper) =
        iatLookup tbl ((digitsVal ds : Int) - 1)
          (((pyUpper c).toNat : Int) - 65)
      rw [hmap]
      unfold read_path_from_csv
      simp only
      rw [if_pos ⟨hne, hall⟩, pyUpper_idem]
  · decide

/-- Claim C5, witness: the general address derivation instantiated at
letter `b` and digits `5` (column index 1, row index 4). -/
theorem claim_C5_witness :
    matchTarget (setfromcsvName ++ 'b' :: "5".toList ++ [und]) setfromcsvName =
      some ((setfromcsvName ++ ('b' :: "5".toList)) ++ [und]) ∧
    set_path_based_on_file "/mnt/u4".toList
        "/mnt/u4/_setfromcsv_b5_".toList
        ((setfromcsvName ++ ('b' :: "5".toList)) ++ [und])
        (some [[], [], [], [], ["x".toList, "/data/archive".toList]]) =
      iatLookup [[], [], [], [], ["x".toList, "/data/archive".toList]]
        ((digitsVal "5".toList : Int) - 1)
        (((pyUpper 'b').toNat : Int) - 65) :=
  claim_C5.1 'b' "5".toList _ _ _ (by decide) (by decide) (by decide)

/-- Claim C6, counterexample: the resolver returns the csv cell value
`/bad` although no directory of that name exists in the fixture — no
existence validation is performed before returning. -/
theorem claim_C6_counterexample :
    choose_path c6csv [c6vol] = some "/bad".toList ∧
    "/bad".toList ∉ allVolDirs [c6vol] := by
  decide

/-- Claim C6, amended: the only validation the resolver applies to a
converted path is Python truthiness, so a returned path is always a
non-empty string — but it may name a directory that does not exist. -/
theorem claim_C6_amended (csv : Option (List (List Str))) (vols : List Volume)
    (p : Str) (h : choose_path csv vols = some p) : p ≠ [] := by
  simp only [choose_path] at h
  split at h
  · rename_i q heq
    injection h with h
    subst h
    exact choose_path_loop_some_ne csv _ _ heq
  · split at h
    · rename_i sv heq2
      exact tryVolume_some_ne csv sv p h
    · cases h

/-- Claim C6, witness: the path returned for the counterexample fixture
is non-empty, as the amended claim states. -/
theorem claim_C6_witness : "/bad".toList ≠ ([] : Str) :=
  claim_C6_amended c6csv [c6vol] "/bad".toList (by decide)

/-- Claim C7: a directory whose listing raises `PermissionError`
contributes no matches (its subtree is skipped), siblings at the same
or shallower depth are still scanned with the same result as if the
denied subtree were absent, and a permission error at the walk root
itself makes the scan return empty. -/
theorem claim_C7 :
    (∀ (isSys : Bool) (maxD : Nat) (drive : Str) (t : FSDir) (root : Str),
      t.denied = true → searchDirV10 isSys maxD drive t root = none) ∧
    (∀ (isSys : Bool) (maxD : Nat) (drive : Str) (d : FSDir)
       (cs : List FSDir) (root : Str),
      d.denied = true →
      searchSubsV10 isSys maxD drive (d :: cs) root =
        searchSubsV10 isSys maxD drive cs root) := by
  have h1 : ∀ (isSys : Bool) (maxD : Nat) (drive : Str) (t : FSDir) (root : Str),
      t.denied = true → searchDirV10 isSys maxD drive t root = none := by
    intro isSys maxD drive t root hd
    cases t with
    | mk n d fs ss =>
      simp [FSDir.denied] at hd
      simp [searchDirV10, hd]
  refine ⟨h1, ?_⟩
  intro isSys maxD drive d cs root hd
  simp [searchSubsV10, h1 isSys maxD drive d (pjoin root d.name) hd]

/-- Claim C7, witness: a denied subtree before a readable sibling leaves
the scan result equal to the sibling-only scan, which returns the
sibling's marker; a denied walk root scans to nothing. -/
theorem claim_C7_witness :
    searchSubsV10 false 2 "/mnt/u".toList [deniedDir, okDir] "/mnt/u".toList =
      searchSubsV10 false 2 "/mnt/u".toList [okDir] "/mnt/u".toList ∧
    searchDirV10 false 2 "/mnt/u".toList (FSDir.mk "u".toList true [] [])
      "/mnt/u".toList = none ∧
    searchSubsV10 false 2 "/mnt/u".toList [okDir] "/mnt/u".toList =
      some ("/mnt/u/good/_setpath_".toList, setpathName) :=
  ⟨claim_C7.2 false 2 "/mnt/u".toList deniedDir [okDir] "/mnt/u".toList rfl,
   claim_C7.1 false 2 "/mnt/u".toList (FSDir.mk "u".toList true [] [])
     "/mnt/u".toList rfl,
   by decide⟩

/-- Claim C8, counterexample: `path_setter.get_external_drives`
propagates a `PermissionError` raised while listing `/media` instead of
excluding the location — the enumerate contract "never raises on a
permission error" fails for this implementation. -/
theorem claim_C8_counterexample :
    envDenied.pathExists mediaRoot = true ∧
    envDenied.listdir mediaRoot = .error () ∧
    get_external_drives_ps envDenied = .error () :=
  ⟨by decide, rfl, rfl⟩

/-- Claim C8, amended: `path_setter`'s enumerator propagates a listing
permission error, while `simple_path_manager`'s enumerator is total and
every drive it returns comes from a mount root that existed and listed
successfully — denied mount points are simply excluded. -/
theorem claim_C8_amended :
    (∀ env : Env, env.pathExists mediaRoot = true →
      env.listdir mediaRoot = .error () →
      get_external_drives_ps env = .error ()) ∧
    (∀ (env : Env) (p : Str), p ∈ get_external_drives_spm env →
      ∃ root, root ∈ spmRoots ∧ env.pathExists root = true ∧
        ∃ es, env.listdir root = Except.ok es ∧
          ∃ e, e ∈ es ∧ p = pjoin root e ∧ env.isdir p = true) := by
  constructor
  · intro env h1 h2
    simp [get_external_drives_ps, h1, h2]
  · intro env p hp
    simp only [get_external_drives_spm, List.mem_flatMap] at hp
    obtain ⟨root, hroot, hmem⟩ := hp
    refine ⟨root, hroot, ?_⟩
    unfold spmRootDrives at hmem
    by_cases he : env.pathExists root = true
    · rw [if_pos he] at hmem
      cases hl : env.listdir root with
      | error e => rw [hl] at hmem; simp at hmem
      | ok es =>
        rw [hl] at hmem
        simp only [List.mem_filter, List.mem_map] at hmem
        obtain ⟨⟨e, he2, rfl⟩, hd⟩ := hmem
        exact ⟨he, es, rfl, e, he2, rfl, hd⟩
    · rw [if_neg he] at hmem; simp at hmem

/-- Claim C8, witness: the propagation half applied to the environment
whose `/media` listing is denied. -/
theorem claim_C8_witness : get_external_drives_ps envDenied = .error () :=
  claim_C8_amended.1 envDenied (by decide) rfl

/-- Claim C9: after the recent-list update the chosen path is first,
occurs exactly once, the list has at most five entries, and adding a
fresh path (in particular a sixth distinct one) front-inserts it and
truncates, dropping the oldest entry. -/
theorem claim_C9 (p : Str) (items : List Str) :
    (save_recent_list p items).head? = some p ∧
    (save_recent_list p items).count p = 1 ∧
    (save_recent_list p items).length ≤ 5 ∧
    (p ∉ items → save_recent_list p items = (p :: items).take 5) := by
  refine ⟨?_, ?_, ?_, ?_⟩
  · simp [save_recent_list]
  · have h0 : (((items.filter (fun q => q ≠ p)).take 4).count p) = 0 := by
      refine List.count_eq_zero.mpr ?_
      intro hmem
      have h1 : p ∈ items.filter (fun q => q ≠ p) :=
        (List.take_subset _ _) hmem
      have h2 := List.of_mem_filter h1
      simp at h2
    unfold save_recent_list
    rw [List.take_succ_cons, List.count_cons_self, h0]
  · exact List.length_take_le _ _
  · intro hp
    have hfe : items.filter (fun q => q ≠ p) = items := by
      refine List.filter_eq_self.mpr ?_
      intro a ha
      simp only [decide_eq_true_eq]
      intro hq
      exact hp (hq ▸ ha)
    unfold save_recent_list
    rw [hfe]

/-- Claim C9, witness: adding a sixth distinct path to a full recent
list keeps the five most recent entries. -/
theorem claim_C9_witness :
    save_recent_list "/f".toList
      ["/a".toList, "/b".toList, "/c".toList, "/d".toList, "/e".toList] =
    ("/f".toList ::
      ["/a".toList, "/b".toList, "/c".toList, "/d".toList, "/e".toList]).take 5 :=
  (claim_C9 "/f".toList
      ["/a".toList, "/b".toList, "/c".toList, "/d".toList, "/e".toList]).2.2.2
    (by decide)

/-- Claim C10: selecting an in-range subfolder pushes the current
directory and descends, an immediate "go back" pops it and restores the
exact pre-descent state, and "go back" with an empty history leaves the
state unchanged. -/
theorem claim_C10 :
    (∀ (subsOf : Str → List Str) (s : NavState) (n : Nat),
      2 ≤ n → n - 2 < (subsOf s.path).length →
      navStep subsOf s (.num n) =
        .cont ⟨pjoin s.path ((subsOf s.path).getD (n - 2) []),
               s.history ++ [s.path]⟩ ∧
      navStep subsOf
        ⟨pjoin s.path ((subsOf s.path).getD (n - 2) []),
         s.history ++ [s.path]⟩ .back = .cont s) ∧
    (∀ (subsOf : Str → List Str) (s : NavState),
      s.history = [] → navStep subsOf s .back = .cont s) := by
  constructor
  · intro subsOf s n h2 hlt
    constructor
    · have hne : n ≠ 1 := by omega
      simp [navStep, hne, h2, hlt]
    · simp [navStep, List.getLast?_concat, List.dropLast_concat]
  · intro subsOf s h
    simp [navStep, h]

/-- Claim C10, witness: descending into the only subfolder and going
back restores the starting state. -/
theorem claim_C10_witness :
    navStep (fun _ => ["d1".toList]) ⟨"/base/d1".toList, ["/base".toList]⟩
      .back = .cont ⟨"/base".toList, []⟩ :=
  (claim_C10.1 (fun _ => ["d1".toList]) ⟨"/base".toList, []⟩ 2
    (by decide) (by decide)).2
